/-
Verification of the yt-dlp self-update engine (`yt_dlp/update.py`) against its
natural-language specification.

The module is shallowly embedded: `run_update` is modelled as a deterministic
function of an `Env` (release manifest, network outcomes, filesystem-failure
knobs, detected variant, architecture label) and an initial filesystem state
`FS` covering the three paths the routine touches (the live executable and its
`.new` / `.old` siblings).  The result records the final filesystem, the
messages reported through the `ydl` sink, a trace of performed side effects,
and the outcome: a Python return value (`None` / `True`) or an uncaught
exception, mirroring the source's `try`/`except` structure statement by
statement.

SHA-256 itself is abstracted as a parameter `H : List Nat → String` mapping the
full absorbed byte sequence to a hex string; `hashlib`'s incremental interface
is modelled by accumulating the absorbed bytes, which is exactly the contract
`update`/`hexdigest` provide.
-/
import Mathlib

set_option linter.unusedVariables false

namespace YtDlpUpdate

/-! ## Data model -/

/-- The packaging variants returned by `detect_variant()`. -/
inductive Variant
  | win_exe | zip | mac_exe | py2exe | win_dir | mac_dir | source | unknown
deriving DecidableEq, Repr

/-- The string tag of a variant, as the Python code uses it. -/
def Variant.tag : Variant → String
  | .win_exe => "win_exe"
  | .zip => "zip"
  | .mac_exe => "mac_exe"
  | .py2exe => "py2exe"
  | .win_dir => "win_dir"
  | .mac_dir => "mac_dir"
  | .source => "source"
  | .unknown => "unknown"

/-- `_NON_UPDATEABLE_REASONS`: `none` means the variant is updatable. -/
def NON_UPDATEABLE_REASONS (v : Variant) : Option String :=
  match v with
  | .win_exe | .zip | .mac_exe | .py2exe => none
  | .win_dir => some "Auto-update is not supported for unpackaged windows executable; Re-download the latest release"
  | .mac_dir => some "Auto-update is not supported for unpackaged MacOS executable; Re-download the latest release"
  | .source => some "You cannot update when running from source code; Use git to pull the latest changes"
  | .unknown => some "It looks like you installed yt-dlp with a package manager, pip or setup.py; Use that to update"

/-- `is_non_updateable()`: every variant is a key of the dict, so the
`.get(..., reasons['unknown'])` default is never taken. -/
def is_non_updateable (v : Variant) : Option String :=
  NON_UPDATEABLE_REASONS v

/-- A release asset: `name` is always present; `browser_download_url` is
`none` when the JSON object lacks the key (Python `.get` then yields `None`). -/
structure Asset where
  name : String
  browser_download_url : Option String
deriving DecidableEq, Repr

/-- The decoded release manifest.  `tag_name = none` models a JSON body with
no `tag_name` key, on which `version_info['tag_name']` raises `KeyError`. -/
structure ReleaseInfo where
  tag_name : Option String
  assets : List Asset
deriving DecidableEq, Repr

/-! ## Version comparator -/

/-- Python `str.split('.')`: split a character list on `'.'`;
`''.split('.')` is `['']`. -/
def splitDot : List Char → List (List Char)
  | [] => [[]]
  | c :: cs =>
    if c = '.' then [] :: splitDot cs
    else
      match splitDot cs with
      | [] => [[c]]
      | h :: t => (c :: h) :: t

/-- The digit string of one component: `none` when empty or containing a
non-digit character. -/
def digitsVal? (cs : List Char) : Option Nat :=
  match cs with
  | [] => none
  | _ :: _ =>
    cs.foldl (fun acc c =>
      match acc with
      | none => none
      | some n => if c.isDigit then some (n * 10 + (c.toNat - 48)) else none)
      (some 0)

/-- Python `int(s)` on a version component: digits with an optional sign,
`none` when the component is malformed (Python raises `ValueError`). -/
def pyInt? : List Char → Option Int
  | '-' :: rest => (digitsVal? rest).map (fun n => -(n : Int))
  | '+' :: rest => (digitsVal? rest).map (fun n => (n : Int))
  | cs => (digitsVal? cs).map (fun n => (n : Int))

/-- `version_tuple`: split on `.` and parse each component; `none` models the
uncaught `ValueError` on a malformed component. -/
def version_tuple (s : String) : Option (List Int) :=
  (splitDot s.data).mapM pyInt?

/-- Python tuple `<`: lexicographic, a strict prefix is smaller. -/
def pyTupleLt : List Int → List Int → Bool
  | [], [] => false
  | [], _ :: _ => true
  | _ :: _, [] => false
  | a :: as_, b :: bs =>
    if a < b then true
    else if b < a then false
    else pyTupleLt as_ bs

/-- Python tuple `>=`, as used in `version_tuple(__version__) >= version_tuple(version_id)`. -/
def pyTupleGe (a b : List Int) : Bool :=
  !(pyTupleLt a b)

/-! ## Integrity checker -/

/-- The read-loop chunk size of `calc_sha256sum`: 128 KiB. -/
def CHUNK : Nat := 128 * 1024

/-- Fuel-indexed read loop; each read removes at least one byte, so
`l.length` fuel always suffices. -/
def readChunksFuel : Nat → List Nat → List (List Nat)
  | _, [] => []
  | 0, l => [l]
  | fuel + 1, x :: xs => (x :: xs).take CHUNK :: readChunksFuel fuel ((x :: xs).drop CHUNK)

/-- The successive chunks produced by `iter(lambda: f.readinto(mv), 0)` on a
regular file: each read fills up to `CHUNK` bytes until the file is drained. -/
def readChunks (l : List Nat) : List (List Nat) :=
  readChunksFuel l.length l

/-- `hashlib`'s `h.update(chunk)`: the hash state absorbs the bytes. -/
def hash_update (st chunk : List Nat) : List Nat := st ++ chunk

/-- `hashlib.sha256(content).hexdigest()`, the one-shot digest used on the
in-memory buffer in the archive path.  `H` abstracts the SHA-256 compression
pipeline as a function of the full absorbed byte sequence. -/
def sha256_oneshot (H : List Nat → String) (content : List Nat) : String :=
  H content

/-- `calc_sha256sum`: stream the file content through the hash in fixed
128 KiB chunks (reusable buffer `mv`, `h.update(mv[:n])` per read), then
`hexdigest`. -/
def calc_sha256sum (H : List Nat → String) (content : List Nat) : String :=
  H ((readChunks content).foldl hash_update [])

/-! ## Release resolver / checksum lookup -/

/-- The `version_labels` dict from `run_update`. -/
def version_labels : List (String × String) :=
  [("zip_3", ""), ("win_exe_64", ".exe"), ("py2exe_64", "_min.exe"),
   ("win_exe_32", "_x86.exe"), ("mac_exe_64", "_macos")]

/-- Exceptions that can escape a statement of the modelled code. -/
inductive Exc
  | osError
  | keyError
  | valueError
  | assertionError (msg : String)
deriving DecidableEq, Repr

/-- Python `needle in hay` on strings: contiguous-substring containment
(the empty string is a substring of everything). -/
def pySubstr (needle hay : String) : Bool :=
  (hay.data.tails).any (fun t => needle.data.isPrefixOf t)

/-- Python falsiness of the url value: `None` or the empty string. -/
def pyFalsyStr : Option String → Bool
  | none => true
  | some s => s == ""

/-- `.get('browser_download_url')` on the asset `next(...)` found (or on the
`{}` default when no asset matched). -/
def assetUrl : Option Asset → Option String
  | none => none
  | some a => a.browser_download_url

/-- `get_bin_info(bin_or_exe, version)`: look up the suffix in
`version_labels` (a missing key raises `KeyError`), then take the first asset
named exactly `'yt-dlp' + label`. -/
def get_bin_info (assets : List Asset) (bin_or_exe version : String) :
    Except Exc (Option Asset) :=
  match version_labels.lookup (bin_or_exe ++ "_" ++ version) with
  | none => .error .keyError
  | some label => .ok (assets.find? (fun i => i.name == "yt-dlp" ++ label))

/-- One line of the checksum manifest, already whitespace-split into tokens;
`ln.split()[::-1]` feeds the reversed pair to `dict`, which requires exactly
two tokens (`ValueError` otherwise) and maps the second token (the filename)
to the first (the digest). -/
def sumsPair : List String → Except Exc (String × String)
  | [digest, fname] => .ok (fname, digest)
  | _ => .error .valueError

/-- `dict(...)` keeps the last binding of a duplicated key, so `.get` reads
the most recent insertion. -/
def lookupLast (d : List (String × String)) (k : String) : Option String :=
  (d.reverse).lookup k

/-! ## Filesystem, messages, events, environment -/

/-- The three on-disk paths the routine touches: the live executable
`filename`, and its `.new` / `.old` siblings. -/
inductive UPath
  | live | newF | oldF
deriving DecidableEq, Repr

/-- Filesystem state: the byte content at each of the three paths
(`none` = the path does not exist). -/
structure FS where
  live : Option (List Nat)
  newF : Option (List Nat)
  oldF : Option (List Nat)
deriving DecidableEq, Repr

/-- Messages pushed to the `ydl` reporting sink.  `error` carries the
`expected` flag (`tb=''` suppresses the traceback). -/
inductive Msg
  | screen (s : String)
  | warning (s : String)
  | error (s : String) (expected : Bool)
deriving DecidableEq, Repr

/-- Trace of the externally visible side effects the routine performed
(successfully). -/
inductive Ev
  | fetchedManifest
  | downloadedAsset (url : String)
  | wrote (p : UPath)
  | removed (p : UPath)
  | renamed (src dst : UPath)
  | spawnedCleanup
deriving DecidableEq, Repr

/-- How the call ends: a Python return (`ret false` is `return None`,
`ret true` is `return True`) or an uncaught exception. -/
inductive Outcome
  | ret (b : Bool)
  | raised (e : Exc)
deriving DecidableEq, Repr

/-- The observable result of one `run_update` call. -/
structure RunResult where
  fs : FS
  msgs : List Msg
  evs : List Ev
  outcome : Outcome
deriving DecidableEq, Repr

/-- Ambient inputs of a `run_update` call: the process state consulted by the
routine, the outcomes of its network requests, and per-site filesystem
failure knobs (`true` = that OS call raises `OSError` for an environmental
reason such as permissions or locking, independent of the modelled state). -/
structure Env where
  H : List Nat → String
  currentVersion : String
  variant : Variant
  arch : String
  filename : String
  dirname : String
  fetchVersionInfo : Option ReleaseInfo
  download : String → Option (List Nat)
  shaFetch : String → Option (List (List String))
  accessLiveW : Bool
  accessDirW : Bool
  failRemoveOld : Bool
  failWriteNew : Bool
  failRemoveCorrupt : Bool
  failRenameLiveOld : Bool
  failRenameNewLive : Bool
  failRenameOldLive : Bool
  failPopen : Bool
  failWriteLive : Bool

/-! ## Reporting helpers (closures at the top of `run_update`) -/

def report_error (msg : String) (expected : Bool) : Msg :=
  .error msg expected

def report_unable (action : String) (expected : Bool) : Msg :=
  report_error ("Unable to " ++ action) expected

def report_permission_error (file : String) : Msg :=
  report_unable ("write to " ++ file ++ "; Try running as administrator") true

def report_network_error (action delim : String) : Msg :=
  report_unable (action ++ delim ++ " Visit  https://github.com/yt-dlp/yt-dlp/releases/latest") true

/-- `get_sha256sum(bin_or_exe, version)`: look up the suffix (`KeyError` on a
missing key), locate the checksum-manifest asset with
`i['name'] in ('SHA2-256SUMS')` — a *substring* test, since the parenthesised
expression is a plain string, not a tuple — and, if it has a url, fetch it
(an `OSError` here is caught nowhere) and build the filename→digest dict
(`ValueError` unless every line splits into exactly two tokens).  Returns the
digest recorded for `'yt-dlp' + label`. -/
def get_sha256sum (env : Env) (assets : List Asset) (bin_or_exe version : String) :
    Except Exc (Option String) :=
  match version_labels.lookup (bin_or_exe ++ "_" ++ version) with
  | none => .error .keyError
  | some label =>
    let fname := "yt-dlp" ++ label
    match assetUrl (assets.find? (fun i => pySubstr i.name "SHA2-256SUMS")) with
    | none => .ok none
    | some u =>
      if u == "" then .ok none
      else
        match env.shaFetch u with
        | none => .error .osError
        | some lns =>
          match lns.mapM sumsPair with
          | .error e => .error e
          | .ok pairs => .ok (lookupLast pairs fname)

/-! ## Replacement strategy: single-file executable path (lines 130-185) -/

/-- Lines 171-176: `os.rename(filename + '.new', filename)` has failed
(caught `OSError`); report, then execute the *unguarded*
`os.rename(filename + '.old', filename)` — if that rename also raises, the
`OSError` propagates out of `run_update`. -/
def exe_rollback (env : Env) (fs : FS) (m : List Msg) (evs : List Ev) : RunResult :=
  let m1 := m ++ [report_unable "overwrite current version" false]
  match fs.oldF with
  | none => ⟨fs, m1, evs, .raised .osError⟩
  | some ov =>
    if env.failRenameOldLive then ⟨fs, m1, evs, .raised .osError⟩
    else ⟨{ fs with live := some ov, oldF := none }, m1,
          evs ++ [.renamed .oldF .live], .ret false⟩

/-- Lines 177-185: spawn the detached `del /F "<filename>.old"` command and
return `True`.  If `Popen` raises `OSError`, the handler reports and control
falls past the `elif` to line 214's `assert False, 'Unhandled variant: ...'`,
so an `AssertionError` propagates. -/
def exe_finish (env : Env) (version_id : String) (fs : FS) (m : List Msg)
    (evs : List Ev) : RunResult :=
  if env.failPopen then
    ⟨fs, m ++ [report_unable "delete the old version" false], evs,
      .raised (.assertionError ("Unhandled variant: " ++ env.variant.tag))⟩
  else
    ⟨fs, m ++ [Msg.screen ("Updated yt-dlp to version " ++ version_id)],
      evs ++ [.spawnedCleanup], .ret true⟩

/-- Lines 167-176: the two-rename swap.  `os.rename` raises `OSError` when
its source is missing or when the environment fails the call. -/
def exe_swap (env : Env) (version_id : String) (fs : FS) (m : List Msg)
    (evs : List Ev) : RunResult :=
  match fs.live with
  | none => ⟨fs, m ++ [report_unable "move current version" false], evs, .ret false⟩
  | some lv =>
    if env.failRenameLiveOld then
      ⟨fs, m ++ [report_unable "move current version" false], evs, .ret false⟩
    else
      let fs1 : FS := { fs with live := none, oldF := some lv }
      let evs1 := evs ++ [Ev.renamed .live .oldF]
      match fs1.newF with
      | none => exe_rollback env fs1 m evs1
      | some nc =>
        if env.failRenameNewLive then exe_rollback env fs1 m evs1
        else
          exe_finish env version_id { fs1 with live := some nc, newF := none } m
            (evs1 ++ [Ev.renamed .newF .live])

/-- Lines 157-165 plus the fall-through: checksum verification of the
written `.new` file, then the swap.  `get_sha256sum` runs outside every
`try`, so its exceptions propagate.  On a digest mismatch the code reports
and deletes `filename.new` but does *not* return — control falls through
into the swap. -/
def exe_verify_swap (env : Env) (assets : List Asset) (version_id : String)
    (newcontent : List Nat) (fs2 : FS) (m : List Msg) (evs3 : List Ev) : RunResult :=
  match get_sha256sum env assets env.variant.tag env.arch with
  | .error e => ⟨fs2, m, evs3, .raised e⟩
  | .ok expected_sum =>
    match expected_sum with
    | none =>
      exe_swap env version_id fs2
        (m ++ [Msg.warning "no hash information found for the release"]) evs3
    | some s =>
      -- `calc_sha256sum(filename + '.new')` reads back the `.new` file,
      -- whose content is `newcontent`
      if calc_sha256sum env.H newcontent == s then
        exe_swap env version_id fs2 m evs3
      else
        let m1 := m ++ [report_network_error "verify the new executable" ";"]
        if env.failRemoveCorrupt then
          ⟨fs2, m1 ++ [report_unable "remove corrupt download" false], evs3, .ret false⟩
        else
          -- missing `return`: after deleting the corrupt download, control
          -- falls through into the swap
          exe_swap env version_id { fs2 with newF := none } m1 (evs3 ++ [Ev.removed .newF])

/-- Lines 140-155: resolve and download the platform asset and write it to
the `.new` sibling.  The `except OSError` does not catch the `KeyError` from
the `version_labels` lookup inside `get_bin_info`. -/
def exe_download (env : Env) (assets : List Asset) (version_id : String)
    (fs1 : FS) (m : List Msg) (evs1 : List Ev) : RunResult :=
  match get_bin_info assets env.variant.tag env.arch with
  | .error e => ⟨fs1, m, evs1, .raised e⟩
  | .ok binAsset =>
    match assetUrl binAsset with
    | none => ⟨fs1, m ++ [report_network_error "fetch updates" ";"], evs1, .ret false⟩
    | some u =>
      if u == "" then
        ⟨fs1, m ++ [report_network_error "fetch updates" ";"], evs1, .ret false⟩
      else
        match env.download u with
        | none =>
          ⟨fs1, m ++ [report_network_error "download latest version" ";"], evs1, .ret false⟩
        | some newcontent =>
          let evs2 := evs1 ++ [Ev.downloadedAsset u]
          -- lines 151-155: write the download to `filename + '.new'`
          if env.failWriteNew then
            ⟨fs1, m ++ [report_permission_error (env.filename ++ ".new")], evs2, .ret false⟩
          else
            exe_verify_swap env assets version_id newcontent
              { fs1 with newF := some newcontent } m (evs2 ++ [Ev.wrote .newF])

/-- Lines 130-185: the `win_exe` / `py2exe` install path: directory
writability check, stale `.old` removal (lines 134-138:
`if os.path.exists(filename + '.old'): os.remove(...)`), then download,
verification and the rename swap. -/
def exe_install (env : Env) (assets : List Asset) (version_id : String)
    (fs0 : FS) (m : List Msg) (evs : List Ev) : RunResult :=
  if !env.accessDirW then
    ⟨fs0, m ++ [report_permission_error env.dirname], evs, .ret false⟩
  else
    match fs0.oldF with
    | some _ =>
      if env.failRemoveOld then
        ⟨fs0, m ++ [report_unable "remove the old version" false], evs, .ret false⟩
      else
        exe_download env assets version_id { fs0 with oldF := none } m
          (evs ++ [Ev.removed .oldF])
    | none => exe_download env assets version_id fs0 m evs

/-! ## Replacement strategy: zip / mac_exe path (lines 187-212) -/

/-- Lines 187-212: the `zip` / `mac_exe` install path: download, one-shot
verification of the in-memory buffer (a mismatch returns here), then write
the bytes directly over the live path. -/
def pkg_install (env : Env) (assets : List Asset) (version_id : String)
    (fs0 : FS) (m : List Msg) (evs : List Ev) : RunResult :=
  let pack_type := if env.variant = Variant.zip then "3" else "64"
  match get_bin_info assets env.variant.tag pack_type with
  | .error e => ⟨fs0, m, evs, .raised e⟩
  | .ok binAsset =>
    match assetUrl binAsset with
    | none => ⟨fs0, m ++ [report_network_error "fetch updates" ";"], evs, .ret false⟩
    | some u =>
      if u == "" then
        ⟨fs0, m ++ [report_network_error "fetch updates" ";"], evs, .ret false⟩
      else
        match env.download u with
        | none =>
          ⟨fs0, m ++ [report_network_error "download the latest version" ";"], evs, .ret false⟩
        | some newcontent =>
          let evs1 := evs ++ [Ev.downloadedAsset u]
          match get_sha256sum env assets env.variant.tag pack_type with
          | .error e => ⟨fs0, m, evs1, .raised e⟩
          | .ok expected_sum =>
            let write_step : List Msg → RunResult := fun m1 =>
              if env.failWriteLive then
                ⟨fs0, m1 ++ [report_unable "overwrite current version" false], evs1, .ret false⟩
              else
                ⟨{ fs0 with live := some newcontent },
                  m1 ++ [Msg.screen ("Updated yt-dlp to version " ++ version_id ++
                    "; Restart yt-dlp to use the new version")],
                  evs1 ++ [Ev.wrote .live], .ret false⟩
            match expected_sum with
            | none => write_step (m ++ [Msg.warning "no hash information found for the release"])
            | some s =>
              if sha256_oneshot env.H newcontent == s then write_step m
              else ⟨fs0, m ++ [report_network_error "verify the new package" ";"], evs1, .ret false⟩

/-! ## `run_update` -/

/-- The model of `run_update(ydl)` (lines 47-214): manifest fetch, version
comparison, updatability and writability gates, then the variant-specific
install path. -/
def run_update (env : Env) (fs0 : FS) : RunResult :=
  -- lines 77-81
  match env.fetchVersionInfo with
  | none =>
    ⟨fs0, [report_network_error "obtain version info" "; Please try again later or"], [], .ret false⟩
  | some version_info =>
    let evs0 : List Ev := [.fetchedManifest]
    -- line 86: `version_info['tag_name']` raises `KeyError` if absent
    match version_info.tag_name with
    | none => ⟨fs0, [], evs0, .raised .keyError⟩
    | some version_id =>
      let m1 : List Msg :=
        [.screen ("Latest version: " ++ version_id ++ ", Current version: " ++ env.currentVersion)]
      -- line 88: either malformed version string raises `ValueError`
      match version_tuple env.currentVersion with
      | none => ⟨fs0, m1, evs0, .raised .valueError⟩
      | some cur =>
        match version_tuple version_id with
        | none => ⟨fs0, m1, evs0, .raised .valueError⟩
        | some latest =>
          if pyTupleGe cur latest then
            ⟨fs0, m1 ++ [.screen ("yt-dlp is up to date (" ++ env.currentVersion ++ ")")],
              evs0, .ret false⟩
          else
            match is_non_updateable env.variant with
            | some err => ⟨fs0, m1 ++ [report_error err true], evs0, .ret false⟩
            | none =>
              -- line 100: `calc_sha256sum(filename)` reads the live file
              match fs0.live with
              | none => ⟨fs0, m1, evs0, .raised .osError⟩
              | some liveBytes =>
                let m2 := m1 ++
                  [.screen ("Current Build Hash " ++ calc_sha256sum env.H liveBytes),
                   .screen ("Updating to version " ++ version_id ++ " ...")]
                -- line 125
                if !env.accessLiveW then
                  ⟨fs0, m2 ++ [report_permission_error env.filename], evs0, .ret false⟩
                else if env.variant = Variant.win_exe ∨ env.variant = Variant.py2exe then
                  exe_install env version_info.assets version_id fs0 m2 evs0
                else if env.variant = Variant.zip ∨ env.variant = Variant.mac_exe then
                  pkg_install env version_info.assets version_id fs0 m2 evs0
                else
                  -- line 214
                  ⟨fs0, m2, evs0, .raised (.assertionError ("Unhandled variant: " ++ env.variant.tag))⟩

/-! ## Concrete fixtures used by witnesses and counterexamples -/

/-- A concrete stand-in for the SHA-256 hex map: injective on byte lists. -/
def H0 : List Nat → String := fun l => l.foldl (fun s n => s ++ Nat.repr n ++ ".") "h"

def asset_exe : Asset := ⟨"yt-dlp.exe", some "https://dl/exe"⟩

def asset_sums : Asset := ⟨"SHA2-256SUMS", some "https://dl/sums"⟩

def info0 : ReleaseInfo := ⟨some "2021.11.10", [asset_exe, asset_sums]⟩

/-- Baseline environment: `win_exe` on a 64-bit host, a newer release
available, download content `[1, 2, 3]`, checksum manifest matching, every
filesystem operation succeeding. -/
def env0 : Env :=
  { H := H0, currentVersion := "2021.10.22", variant := .win_exe, arch := "64",
    filename := "/opt/yt-dlp", dirname := "/opt",
    fetchVersionInfo := some info0,
    download := fun u => if u == "https://dl/exe" then some [1, 2, 3] else none,
    shaFetch := fun u => if u == "https://dl/sums" then some [[H0 [1, 2, 3], "yt-dlp.exe"]] else none,
    accessLiveW := true, accessDirW := true,
    failRemoveOld := false, failWriteNew := false, failRemoveCorrupt := false,
    failRenameLiveOld := false, failRenameNewLive := false, failRenameOldLive := false,
    failPopen := false, failWriteLive := false }

/-- The live executable holds `[9, 9]`; no stale siblings. -/
def fsA : FS := ⟨some [9, 9], none, none⟩

/-! ## Chunked-digest lemmas -/

theorem foldl_hash_update (cs : List (List Nat)) (s : List Nat) :
    cs.foldl hash_update s = s ++ cs.flatten := by
  induction cs generalizing s with
  | nil => simp
  | cons c cs ih =>
    simp [List.foldl_cons, ih, hash_update, List.append_assoc]

theorem readChunksFuel_flatten :
    ∀ (fuel : Nat) (l : List Nat), l.length ≤ fuel → (readChunksFuel fuel l).flatten = l := by
  intro fuel
  induction fuel with
  | zero =>
    intro l h
    have hl : l = [] := List.eq_nil_of_length_eq_zero (Nat.le_zero.mp h)
    subst hl
    simp [readChunksFuel]
  | succ n ih =>
    intro l h
    match l with
    | [] => simp [readChunksFuel]
    | x :: xs =>
      rw [readChunksFuel]
      have hdrop : ((x :: xs).drop CHUNK).length ≤ n := by
        simp only [List.length_drop, List.length_cons]
        simp only [List.length_cons] at h
        simp [CHUNK]
        omega
      simp only [List.flatten]
      rw [ih _ hdrop, List.take_append_drop]

theorem readChunks_join (l : List Nat) : (readChunks l).flatten = l :=
  readChunksFuel_flatten l.length l (Nat.le_refl _)

/-! ## Structural lemmas about the install paths -/

theorem exe_rollback_restores (env : Env) (fs : FS) (m : List Msg) (evs : List Ev)
    (c : List Nat) (hold : fs.oldF = some c) (hr : env.failRenameOldLive = false) :
    (exe_rollback env fs m evs).fs.live = some c ∧
    (exe_rollback env fs m evs).outcome = .ret false := by
  simp [exe_rollback, hold, hr]

theorem exe_finish_fs (env : Env) (vid : String) (fs : FS) (m : List Msg) (evs : List Ev) :
    (exe_finish env vid fs m evs).fs = fs := by
  unfold exe_finish
  split <;> rfl

theorem exe_finish_evs (env : Env) (vid : String) (fs : FS) (m : List Msg) (evs : List Ev) :
    (exe_finish env vid fs m evs).evs = evs ∨
    (exe_finish env vid fs m evs).evs = evs ++ [Ev.spawnedCleanup] := by
  unfold exe_finish
  split
  · exact Or.inl rfl
  · exact Or.inr rfl

theorem exe_swap_live (env : Env) (vid : String) (fs : FS) (m : List Msg) (evs : List Ev)
    (c : List Nat) (hlive : fs.live = some c) (hr : env.failRenameOldLive = false) :
    ((exe_swap env vid fs m evs).fs.live).isSome ∧
    (Ev.renamed .oldF .live ∈ (exe_swap env vid fs m evs).evs →
      Ev.renamed .oldF .live ∈ evs ∨ (exe_swap env vid fs m evs).fs.live = some c) := by
  unfold exe_swap exe_rollback exe_finish
  rw [hlive]
  simp only [hr]
  repeat' split
  all_goals simp_all

theorem exe_verify_swap_live (env : Env) (assets : List Asset) (vid : String)
    (newcontent : List Nat) (fs2 : FS) (m : List Msg) (evs3 : List Ev) (c : List Nat)
    (hlive : fs2.live = some c) (hr : env.failRenameOldLive = false) :
    ((exe_verify_swap env assets vid newcontent fs2 m evs3).fs.live).isSome ∧
    (Ev.renamed .oldF .live ∈ (exe_verify_swap env assets vid newcontent fs2 m evs3).evs →
      Ev.renamed .oldF .live ∈ evs3 ∨
        (exe_verify_swap env assets vid newcontent fs2 m evs3).fs.live = some c) := by
  unfold exe_verify_swap
  cases hs : get_sha256sum env assets env.variant.tag env.arch with
  | error e => simp [hlive]
  | ok expected =>
    cases expected with
    | none =>
      exact exe_swap_live env vid fs2
        (m ++ [Msg.warning "no hash information found for the release"]) evs3 c hlive hr
    | some s =>
      simp only
      split
      · exact exe_swap_live env vid fs2 m evs3 c hlive hr
      · split
        · simp [hlive]
        · obtain ⟨h1, h2⟩ := exe_swap_live env vid { fs2 with newF := none }
            (m ++ [report_network_error "verify the new executable" ";"])
            (evs3 ++ [Ev.removed .newF]) c (by simp [hlive]) hr
          refine ⟨h1, fun hm => ?_⟩
          rcases h2 hm with h | h
          · left
            simpa using h
          · right
            exact h

theorem exe_download_live (env : Env) (assets : List Asset) (vid : String)
    (fs1 : FS) (m : List Msg) (evs1 : List Ev) (c : List Nat)
    (hlive : fs1.live = some c) (hr : env.failRenameOldLive = false) :
    ((exe_download env assets vid fs1 m evs1).fs.live).isSome ∧
    (Ev.renamed .oldF .live ∈ (exe_download env assets vid fs1 m evs1).evs →
      Ev.renamed .oldF .live ∈ evs1 ∨
        (exe_download env assets vid fs1 m evs1).fs.live = some c) := by
  unfold exe_download
  cases hb : get_bin_info assets env.variant.tag env.arch with
  | error e => simp [hlive]
  | ok binAsset =>
    try simp only [hb]
    cases hu : assetUrl binAsset with
    | none => simp [hlive, hu]
    | some u =>
      try simp only [hu]
      split
      · simp [hlive]
      · cases hd : env.download u with
        | none => simp [hlive, hd]
        | some newcontent =>
          try simp only [hd]
          split
          · simp [hlive]
          · obtain ⟨h1, h2⟩ := exe_verify_swap_live env assets vid newcontent
              { fs1 with newF := some newcontent } m
              (evs1 ++ [Ev.downloadedAsset u] ++ [Ev.wrote .newF]) c (by simp [hlive]) hr
            refine ⟨h1, fun hm => ?_⟩
            rcases h2 hm with h | h
            · left
              simpa using h
            · right
              exact h

theorem exe_install_live (env : Env) (assets : List Asset) (vid : String)
    (fs0 : FS) (m : List Msg) (evs : List Ev) (c : List Nat)
    (hlive : fs0.live = some c) (hr : env.failRenameOldLive = false) :
    ((exe_install env assets vid fs0 m evs).fs.live).isSome ∧
    (Ev.renamed .oldF .live ∈ (exe_install env assets vid fs0 m evs).evs →
      Ev.renamed .oldF .live ∈ evs ∨
        (exe_install env assets vid fs0 m evs).fs.live = some c) := by
  unfold exe_install
  split
  · simp [hlive]
  · split
    · split
      · simp [hlive]
      · obtain ⟨h1, h2⟩ := exe_download_live env assets vid { fs0 with oldF := none } m
          (evs ++ [Ev.removed .oldF]) c (by simp [hlive]) hr
        refine ⟨h1, fun hm => ?_⟩
        rcases h2 hm with h | h
        · left
          simpa using h
        · right
          exact h
    · exact exe_download_live env assets vid fs0 m evs c hlive hr

theorem pkg_install_live (env : Env) (assets : List Asset) (vid : String)
    (fs0 : FS) (m : List Msg) (evs : List Ev) (c : List Nat)
    (hlive : fs0.live = some c) :
    ((pkg_install env assets vid fs0 m evs).fs.live).isSome ∧
    (Ev.renamed .oldF .live ∈ (pkg_install env assets vid fs0 m evs).evs →
      Ev.renamed .oldF .live ∈ evs) := by
  simp only [pkg_install]
  generalize (if env.variant = Variant.zip then "3" else "64") = pt
  cases hb : get_bin_info assets env.variant.tag pt with
  | error e => simp [hlive, hb]
  | ok binAsset =>
    try simp only [hb]
    cases hu : assetUrl binAsset with
    | none => simp [hlive, hu]
    | some u =>
      try simp only [hu]
      split
      · simp [hlive]
      · cases hd : env.download u with
        | none => simp [hlive, hd]
        | some newcontent =>
          try simp only [hd]
          cases hs : get_sha256sum env assets env.variant.tag pt with
          | error e => simp [hlive, hs]
          | ok expected =>
            try simp only [hs]
            cases expected with
            | none =>
              repeat' split
              all_goals simp [hlive]
            | some s =>
              repeat' split
              all_goals simp [hlive]

/-- The events the single-file-executable install path may add: stale/corrupt
sibling removals, the asset download, a write to the `.new` sibling (never a
direct write to the live path), renames, and the deferred-cleanup spawn. -/
def exeAdded : Ev → Bool
  | .removed _ => true
  | .downloadedAsset _ => true
  | .wrote p => p == UPath.newF
  | .renamed _ _ => true
  | .spawnedCleanup => true
  | .fetchedManifest => false

/-- The events the archive/package install path may add: the asset download
and a direct write to the live path — never a rename or removal. -/
def pkgAdded : Ev → Bool
  | .downloadedAsset _ => true
  | .wrote p => p == UPath.live
  | _ => false

theorem exe_swap_trace (env : Env) (vid : String) (fs : FS) (m : List Msg) (evs : List Ev) :
    ∀ e ∈ (exe_swap env vid fs m evs).evs, e ∈ evs ∨ exeAdded e = true := by
  unfold exe_swap exe_rollback exe_finish
  cases hn : fs.newF
  all_goals repeat' split
  all_goals intro e he
  all_goals simp_all [exeAdded]
  all_goals aesop

theorem exe_verify_swap_trace (env : Env) (assets : List Asset) (vid : String)
    (newcontent : List Nat) (fs2 : FS) (m : List Msg) (evs3 : List Ev) :
    ∀ e ∈ (exe_verify_swap env assets vid newcontent fs2 m evs3).evs,
      e ∈ evs3 ∨ exeAdded e = true := by
  unfold exe_verify_swap
  cases hs : get_sha256sum env assets env.variant.tag env.arch with
  | error err => exact fun e he => Or.inl he
  | ok expected =>
    try simp only [hs]
    cases expected with
    | none =>
      exact exe_swap_trace env vid fs2
        (m ++ [Msg.warning "no hash information found for the release"]) evs3
    | some s =>
      simp only
      split
      · exact exe_swap_trace env vid fs2 m evs3
      · split
        · exact fun e he => Or.inl he
        · intro e he
          rcases exe_swap_trace env vid _ _ (evs3 ++ [Ev.removed .newF]) e he with h | h
          · rcases (by simpa using h : e ∈ evs3 ∨ e = Ev.removed UPath.newF) with h | h
            · exact Or.inl h
            · subst h
              right
              rfl
          · exact Or.inr h

theorem exe_download_trace (env : Env) (assets : List Asset) (vid : String)
    (fs1 : FS) (m : List Msg) (evs1 : List Ev) :
    ∀ e ∈ (exe_download env assets vid fs1 m evs1).evs,
      e ∈ evs1 ∨ exeAdded e = true := by
  unfold exe_download
  cases hb : get_bin_info assets env.variant.tag env.arch with
  | error err => exact fun e he => Or.inl he
  | ok binAsset =>
    try simp only [hb]
    cases hu : assetUrl binAsset with
    | none => exact fun e he => Or.inl he
    | some u =>
      try simp only [hu]
      split
      · exact fun e he => Or.inl he
      · cases hd : env.download u with
        | none => exact fun e he => Or.inl he
        | some newcontent =>
          try simp only [hd]
          split
          · intro e he
            rcases (by simpa using he : e ∈ evs1 ∨ e = Ev.downloadedAsset u) with h | h
            · exact Or.inl h
            · subst h
              right
              rfl
          · intro e he
            rcases exe_verify_swap_trace env assets vid newcontent _ m
              (evs1 ++ [Ev.downloadedAsset u] ++ [Ev.wrote .newF]) e he with h | h
            · rcases (by simpa using h :
                  e ∈ evs1 ∨ e = Ev.downloadedAsset u ∨ e = Ev.wrote UPath.newF) with h | h | h
              · exact Or.inl h
              · subst h
                right
                rfl
              · subst h
                right
                rfl
            · exact Or.inr h

theorem exe_install_trace (env : Env) (assets : List Asset) (vid : String)
    (fs0 : FS) (m : List Msg) (evs : List Ev) :
    ∀ e ∈ (exe_install env assets vid fs0 m evs).evs,
      e ∈ evs ∨ exeAdded e = true := by
  unfold exe_install
  split
  · exact fun e he => Or.inl he
  · split
    · split
      · exact fun e he => Or.inl he
      · intro e he
        rcases exe_download_trace env assets vid _ m (evs ++ [Ev.removed .oldF]) e he with h | h
        · rcases (by simpa using h : e ∈ evs ∨ e = Ev.removed UPath.oldF) with h | h
          · exact Or.inl h
          · subst h
            right
            rfl
        · exact Or.inr h
    · exact exe_download_trace env assets vid fs0 m evs

theorem pkg_install_trace (env : Env) (assets : List Asset) (vid : String)
    (fs0 : FS) (m : List Msg) (evs : List Ev) :
    ∀ e ∈ (pkg_install env assets vid fs0 m evs).evs,
      e ∈ evs ∨ pkgAdded e = true := by
  simp only [pkg_install]
  generalize (if env.variant = Variant.zip then "3" else "64") = pt
  cases hb : get_bin_info assets env.variant.tag pt with
  | error err => exact fun e he => Or.inl he
  | ok binAsset =>
    try simp only [hb]
    cases hu : assetUrl binAsset with
    | none => exact fun e he => Or.inl he
    | some u =>
      try simp only [hu]
      split
      · exact fun e he => Or.inl he
      · cases hd : env.download u with
        | none => exact fun e he => Or.inl he
        | some newcontent =>
          try simp only [hd]
          have hstep : ∀ e ∈ evs ++ [Ev.downloadedAsset u], e ∈ evs ∨ pkgAdded e = true := by
            intro e he
            rcases (by simpa using he : e ∈ evs ∨ e = Ev.downloadedAsset u) with h | h
            · exact Or.inl h
            · subst h
              right
              rfl
          have hstepw : ∀ e ∈ evs ++ [Ev.downloadedAsset u, Ev.wrote UPath.live],
              e ∈ evs ∨ pkgAdded e = true := by
            intro e he
            rcases (by simpa using he :
                e ∈ evs ∨ e = Ev.downloadedAsset u ∨ e = Ev.wrote UPath.live) with h | h | h
            · exact Or.inl h
            · subst h
              right
              rfl
            · subst h
              right
              rfl
          cases hs : get_sha256sum env assets env.variant.tag pt with
          | error err => exact hstep
          | ok expected =>
            try simp only [hs]
            cases expected with
            | none =>
              cases hw : env.failWriteLive with
              | true =>
                simp only [hw, reduceIte]
                exact hstep
              | false =>
                simp only [hw, Bool.false_eq_true, reduceIte]
                intro e he
                exact hstepw e (by simpa using he)
            | some s =>
              cases hcmp : sha256_oneshot env.H newcontent == s with
              | false =>
                simp only [hcmp, Bool.false_eq_true, reduceIte]
                exact hstep
              | true =>
                simp only [hcmp, reduceIte]
                cases hw : env.failWriteLive with
                | true =>
                  simp only [hw, reduceIte]
                  exact hstep
                | false =>
                  simp only [hw, Bool.false_eq_true, reduceIte]
                  intro e he
                  exact hstepw e (by simpa using he)

/-- Did the call end in a Python `return` (as opposed to an uncaught
exception)? -/
def Outcome.isRet : Outcome → Bool
  | .ret _ => true
  | .raised _ => false

theorem sumsPair_loop_ok :
    ∀ (lns : List (List String)) (acc : List (String × String)),
      (∀ ln ∈ lns, ∃ a b, ln = [a, b]) →
      ∃ ps, List.mapM.loop sumsPair lns acc = .ok ps := by
  intro lns
  induction lns with
  | nil => exact fun acc h => ⟨acc.reverse, rfl⟩
  | cons x xs ih =>
    intro acc h
    obtain ⟨a, b, rfl⟩ := h x (List.mem_cons_self _ _)
    obtain ⟨ps, hps⟩ := ih ((b, a) :: acc) (fun ln hln => h ln (List.mem_cons_of_mem _ hln))
    exact ⟨ps, hps⟩

theorem get_bin_info_ok (assets : List Asset) (t v : String)
    (hlab : (version_labels.lookup (t ++ "_" ++ v)).isSome) :
    ∃ r, get_bin_info assets t v = .ok r := by
  obtain ⟨label, hl⟩ := Option.isSome_iff_exists.mp hlab
  exact ⟨assets.find? (fun i => i.name == "yt-dlp" ++ label), by simp [get_bin_info, hl]⟩

theorem get_sha256sum_ok (env : Env) (assets : List Asset) (t v : String)
    (hlab : (version_labels.lookup (t ++ "_" ++ v)).isSome)
    (hsha : ∀ u, ∃ lns, env.shaFetch u = some lns ∧ ∀ ln ∈ lns, ∃ a b, ln = [a, b]) :
    ∃ r, get_sha256sum env assets t v = .ok r := by
  obtain ⟨label, hl⟩ := Option.isSome_iff_exists.mp hlab
  unfold get_sha256sum
  rw [hl]
  cases hu : assetUrl (assets.find? fun i => pySubstr i.name "SHA2-256SUMS") with
  | none => exact ⟨none, rfl⟩
  | some u =>
    try simp only [hu]
    split
    · exact ⟨none, rfl⟩
    · obtain ⟨lns, hfetch, hlns⟩ := hsha u
      try simp only [hfetch]
      obtain ⟨ps, hps⟩ := sumsPair_loop_ok lns [] hlns
      have hm : lns.mapM sumsPair = Except.ok ps := hps
      rw [hm]
      exact ⟨_, rfl⟩

theorem exe_swap_ret (env : Env) (vid : String) (fs : FS) (m : List Msg) (evs : List Ev)
    (hr : env.failRenameOldLive = false) (hp : env.failPopen = false) :
    ∃ b, (exe_swap env vid fs m evs).outcome = .ret b := by
  unfold exe_swap exe_rollback exe_finish
  cases hlv : fs.live
  all_goals cases hn2 : fs.newF
  all_goals repeat' split
  all_goals first
    | exact ⟨_, rfl⟩
    | simp_all

theorem exe_verify_swap_ret (env : Env) (assets : List Asset) (vid : String)
    (newcontent : List Nat) (fs2 : FS) (m : List Msg) (evs3 : List Ev)
    (hlab : (version_labels.lookup (env.variant.tag ++ "_" ++ env.arch)).isSome)
    (hsha : ∀ u, ∃ lns, env.shaFetch u = some lns ∧ ∀ ln ∈ lns, ∃ a b, ln = [a, b])
    (hr : env.failRenameOldLive = false) (hp : env.failPopen = false) :
    ∃ b, (exe_verify_swap env assets vid newcontent fs2 m evs3).outcome = .ret b := by
  unfold exe_verify_swap
  obtain ⟨r, hok⟩ := get_sha256sum_ok env assets env.variant.tag env.arch hlab hsha
  simp only [hok]
  cases r with
  | none =>
    exact exe_swap_ret env vid fs2
      (m ++ [Msg.warning "no hash information found for the release"]) evs3 hr hp
  | some s =>
    simp only
    split
    · exact exe_swap_ret env vid fs2 m evs3 hr hp
    · split
      · exact ⟨_, rfl⟩
      · exact exe_swap_ret env vid _ _ _ hr hp

theorem exe_download_ret (env : Env) (assets : List Asset) (vid : String)
    (fs1 : FS) (m : List Msg) (evs1 : List Ev)
    (hlab : (version_labels.lookup (env.variant.tag ++ "_" ++ env.arch)).isSome)
    (hsha : ∀ u, ∃ lns, env.shaFetch u = some lns ∧ ∀ ln ∈ lns, ∃ a b, ln = [a, b])
    (hr : env.failRenameOldLive = false) (hp : env.failPopen = false) :
    ∃ b, (exe_download env assets vid fs1 m evs1).outcome = .ret b := by
  unfold exe_download
  obtain ⟨rb, hbin⟩ := get_bin_info_ok assets env.variant.tag env.arch hlab
  simp only [hbin]
  cases hu : assetUrl rb with
  | none =>
    try simp only [hu]
    exact ⟨_, rfl⟩
  | some u =>
    try simp only [hu]
    split
    · exact ⟨_, rfl⟩
    · cases hd : env.download u with
      | none =>
        try simp only [hd]
        exact ⟨_, rfl⟩
      | some newcontent =>
        try simp only [hd]
        split
        · exact ⟨_, rfl⟩
        · exact exe_verify_swap_ret env assets vid newcontent _ m _ hlab hsha hr hp

theorem exe_install_ret (env : Env) (assets : List Asset) (vid : String)
    (fs0 : FS) (m : List Msg) (evs : List Ev)
    (hlab : (version_labels.lookup (env.variant.tag ++ "_" ++ env.arch)).isSome)
    (hsha : ∀ u, ∃ lns, env.shaFetch u = some lns ∧ ∀ ln ∈ lns, ∃ a b, ln = [a, b])
    (hr : env.failRenameOldLive = false) (hp : env.failPopen = false) :
    ∃ b, (exe_install env assets vid fs0 m evs).outcome = .ret b := by
  unfold exe_install
  split
  · exact ⟨_, rfl⟩
  · split
    · split
      · exact ⟨_, rfl⟩
      · exact exe_download_ret env assets vid _ m _ hlab hsha hr hp
    · exact exe_download_ret env assets vid fs0 m evs hlab hsha hr hp

theorem pkg_install_ret (env : Env) (assets : List Asset) (vid : String)
    (fs0 : FS) (m : List Msg) (evs : List Ev)
    (hv : env.variant = Variant.zip ∨ env.variant = Variant.mac_exe)
    (hsha : ∀ u, ∃ lns, env.shaFetch u = some lns ∧ ∀ ln ∈ lns, ∃ a b, ln = [a, b]) :
    ∃ b, (pkg_install env assets vid fs0 m evs).outcome = .ret b := by
  have hlab : (version_labels.lookup (env.variant.tag ++ "_" ++
      (if env.variant = Variant.zip then "3" else "64"))).isSome := by
    rcases hv with h | h <;> rw [h] <;> decide
  simp only [pkg_install]
  obtain ⟨rb, hbin⟩ := get_bin_info_ok assets env.variant.tag _ hlab
  simp only [hbin]
  cases hu : assetUrl rb with
  | none =>
    try simp only [hu]
    exact ⟨_, rfl⟩
  | some u =>
    try simp only [hu]
    split
    · exact ⟨_, rfl⟩
    · cases hd : env.download u with
      | none =>
        try simp only [hd]
        exact ⟨_, rfl⟩
      | some newcontent =>
        try simp only [hd]
        obtain ⟨r, hok⟩ := get_sha256sum_ok env assets env.variant.tag _ hlab hsha
        simp only [hok]
        cases r with
        | none =>
          cases hw : env.failWriteLive
          all_goals try simp only [hw]
          all_goals exact ⟨_, rfl⟩
        | some s =>
          cases hcmp : sha256_oneshot env.H newcontent == s
          all_goals try simp only [hcmp]
          · exact ⟨_, rfl⟩
          · cases hw : env.failWriteLive
            all_goals try simp only [hw]
            all_goals exact ⟨_, rfl⟩

/-! ## Claim theorems -/

/-- C9: the streaming digest of `calc_sha256sum` (fixed 128 KiB chunks fed to
the incremental hash) equals the one-shot digest over the entire content used
in the archive path, and more generally the absorbed stream is the same for
every way of splitting the content into chunks. -/
theorem calc_sha256sum_eq_oneshot (H : List Nat → String) (content : List Nat) :
    calc_sha256sum H content = sha256_oneshot H content ∧
    ∀ chunks : List (List Nat), chunks.flatten = content →
      H (chunks.foldl hash_update []) = sha256_oneshot H content := by
  constructor
  · rw [calc_sha256sum, sha256_oneshot, foldl_hash_update, List.nil_append, readChunks_join]
  · intro chunks h
    rw [foldl_hash_update, List.nil_append, h, sha256_oneshot]

/-- Witness for C9 at concrete content `[1, 2, 3]` and splitting `[[1], [2, 3]]`. -/
theorem calc_sha256sum_eq_oneshot_witness :
    calc_sha256sum H0 [1, 2, 3] = sha256_oneshot H0 [1, 2, 3] ∧
    H0 (([[1], [2, 3]] : List (List Nat)).foldl hash_update []) = sha256_oneshot H0 [1, 2, 3] :=
  ⟨(calc_sha256sum_eq_oneshot H0 [1, 2, 3]).1,
   (calc_sha256sum_eq_oneshot H0 [1, 2, 3]).2 [[1], [2, 3]] (by decide)⟩

/-- Is the event a rename? -/
def Ev.isRename : Ev → Bool
  | .renamed _ _ => true
  | _ => false

def env7 : Env := { env0 with currentVersion := "2021.11.10" }

def env10 : Env := { env0 with variant := .py2exe, arch := "32" }

def env1 : Env :=
  { env0 with shaFetch := fun u => if u == "https://dl/sums" then some [["WRONG", "yt-dlp.exe"]] else none }

def env3 : Env := { env0 with shaFetch := fun _ => none }

def env8 : Env := { env0 with failPopen := true }

def env2 : Env := { env0 with failRenameNewLive := true, failRenameOldLive := true }

def asset_mac : Asset := ⟨"yt-dlp_macos", some "https://dl/mac"⟩

def env4 : Env :=
  { env0 with
    variant := .mac_exe,
    fetchVersionInfo := some ⟨some "2021.11.10", [asset_mac, asset_sums]⟩,
    download := fun u => if u == "https://dl/mac" then some [5, 6] else none,
    shaFetch := fun u => if u == "https://dl/sums" then some [[H0 [5, 6], "yt-dlp_macos"]] else none }

def env6 : Env := { env0 with fetchVersionInfo := some ⟨some "2021.11.10", [asset_sums]⟩ }

def assets5 : List Asset := [⟨"SUMS", some "https://dl/x"⟩]

def env5 : Env :=
  { env0 with shaFetch := fun u => if u == "https://dl/x" then some [["d", "yt-dlp.exe"]] else none }

/-- The suffix-table entry `run_update` consults for the running variant:
`(variant, arch)` on the executable path, `(variant, pack_type)` on the
archive path — a statement-side abbreviation mirroring the dispatch in
`run_update`. -/
def expected_label (env : Env) : Option String :=
  if env.variant = Variant.win_exe ∨ env.variant = Variant.py2exe then
    version_labels.lookup (env.variant.tag ++ "_" ++ env.arch)
  else
    version_labels.lookup
      (env.variant.tag ++ "_" ++ (if env.variant = Variant.zip then "3" else "64"))

/-- C6 (amended): when no asset carries the expected `yt-dlp`-plus-suffix
name, `run_update` reports the *expected network error* `Unable to fetch
updates` (through `ydl.report_error`, not as a benign "no update available"
note) and returns `None` without downloading or writing anything. -/
theorem missing_asset_is_expected_network_error (env : Env) (fs : FS) (info : ReleaseInfo)
    (vid label : String) (cur latest : List Int) (c : List Nat)
    (hf : env.fetchVersionInfo = some info)
    (ht : info.tag_name = some vid)
    (hc : version_tuple env.currentVersion = some cur)
    (hl : version_tuple vid = some latest)
    (hge : pyTupleGe cur latest = false)
    (hn : is_non_updateable env.variant = none)
    (hlive : fs.live = some c)
    (hw : env.accessLiveW = true)
    (hd : env.accessDirW = true)
    (hold : fs.oldF = none ∨ env.failRemoveOld = false)
    (hlab : expected_label env = some label)
    (hfind : info.assets.find? (fun i => i.name == "yt-dlp" ++ label) = none) :
    (run_update env fs).outcome = .ret false ∧
    report_network_error "fetch updates" ";" ∈ (run_update env fs).msgs ∧
    (run_update env fs).fs.live = fs.live ∧
    (run_update env fs).fs.newF = fs.newF ∧
    (∀ u, Ev.downloadedAsset u ∉ (run_update env fs).evs) ∧
    (∀ p, Ev.wrote p ∉ (run_update env fs).evs) := by
  have hmain : ∀ (t a : String),
      version_labels.lookup (t ++ "_" ++ a) = some label →
      get_bin_info info.assets t a = .ok none := by
    intro t a hlook
    simp [get_bin_info, hlook, hfind]
  cases hv : env.variant with
  | win_dir =>
    rw [hv] at hn
    simp [is_non_updateable, NON_UPDATEABLE_REASONS] at hn
  | mac_dir =>
    rw [hv] at hn
    simp [is_non_updateable, NON_UPDATEABLE_REASONS] at hn
  | source =>
    rw [hv] at hn
    simp [is_non_updateable, NON_UPDATEABLE_REASONS] at hn
  | unknown =>
    rw [hv] at hn
    simp [is_non_updateable, NON_UPDATEABLE_REASONS] at hn
  | win_exe =>
    have hlook : version_labels.lookup ("win_exe" ++ "_" ++ env.arch) = some label := by
      simpa [expected_label, hv, Variant.tag] using hlab
    have hbin := hmain _ _ hlook
    rcases hold with h | h
    · simp [run_update, hf, ht, hc, hl, hge, hn, hlive, hw, hd, h, hv, Variant.tag,
        is_non_updateable, NON_UPDATEABLE_REASONS, exe_install, exe_download, hbin, assetUrl]
    · cases hoF : fs.oldF with
      | none =>
        simp [run_update, hf, ht, hc, hl, hge, hn, hlive, hw, hd, hoF, hv, Variant.tag,
          is_non_updateable, NON_UPDATEABLE_REASONS, exe_install, exe_download, hbin, assetUrl]
      | some stale =>
        simp [run_update, hf, ht, hc, hl, hge, hn, hlive, hw, hd, hoF, h, hv, Variant.tag,
          is_non_updateable, NON_UPDATEABLE_REASONS, exe_install, exe_download, hbin, assetUrl]
  | py2exe =>
    have hlook : version_labels.lookup ("py2exe" ++ "_" ++ env.arch) = some label := by
      simpa [expected_label, hv, Variant.tag] using hlab
    have hbin := hmain _ _ hlook
    rcases hold with h | h
    · simp [run_update, hf, ht, hc, hl, hge, hn, hlive, hw, hd, h, hv, Variant.tag,
        is_non_updateable, NON_UPDATEABLE_REASONS, exe_install, exe_download, hbin, assetUrl]
    · cases hoF : fs.oldF with
      | none =>
        simp [run_update, hf, ht, hc, hl, hge, hn, hlive, hw, hd, hoF, hv, Variant.tag,
          is_non_updateable, NON_UPDATEABLE_REASONS, exe_install, exe_download, hbin, assetUrl]
      | some stale =>
        simp [run_update, hf, ht, hc, hl, hge, hn, hlive, hw, hd, hoF, h, hv, Variant.tag,
          is_non_updateable, NON_UPDATEABLE_REASONS, exe_install, exe_download, hbin, assetUrl]
  | zip =>
    have hlook : version_labels.lookup ("zip" ++ "_" ++ "3") = some label := by
      simpa [expected_label, hv, Variant.tag] using hlab
    have hbin := hmain _ _ hlook
    simp [run_update, hf, ht, hc, hl, hge, hn, hlive, hw, hv, Variant.tag,
      is_non_updateable, NON_UPDATEABLE_REASONS, pkg_install, hbin, assetUrl]
  | mac_exe =>
    have hlook : version_labels.lookup ("mac_exe" ++ "_" ++ "64") = some label := by
      simpa [expected_label, hv, Variant.tag] using hlab
    have hbin := hmain _ _ hlook
    simp [run_update, hf, ht, hc, hl, hge, hn, hlive, hw, hv, Variant.tag,
      is_non_updateable, NON_UPDATEABLE_REASONS, pkg_install, hbin, assetUrl]

/-- Witness for the amended C6: the release that ships only the checksum
manifest triggers the expected `Unable to fetch updates` error and leaves the
filesystem untouched. -/
theorem missing_asset_is_expected_network_error_witness :
    (run_update env6 fsA).outcome = .ret false ∧
    report_network_error "fetch updates" ";" ∈ (run_update env6 fsA).msgs ∧
    (run_update env6 fsA).fs.live = fsA.live :=
  have h := missing_asset_is_expected_network_error env6 fsA
    ⟨some "2021.11.10", [asset_sums]⟩ "2021.11.10" ".exe"
    [2021, 10, 22] [2021, 11, 10] [9, 9]
    rfl rfl (by decide) (by decide) (by decide) rfl rfl rfl rfl (Or.inl rfl)
    (by decide) (by decide)
  ⟨h.1, h.2.1, h.2.2.1⟩

/-- C7: when the current version tuple is `>=` the latest tag's tuple,
`run_update` reports "up to date" and returns without downloading any asset
and without touching the filesystem. -/
theorem up_to_date_no_changes (env : Env) (fs : FS) (info : ReleaseInfo)
    (tag : String) (cur latest : List Int)
    (hf : env.fetchVersionInfo = some info)
    (ht : info.tag_name = some tag)
    (hc : version_tuple env.currentVersion = some cur)
    (hl : version_tuple tag = some latest)
    (hge : pyTupleGe cur latest = true) :
    (run_update env fs).outcome = .ret false ∧
    (run_update env fs).fs = fs ∧
    (run_update env fs).evs = [Ev.fetchedManifest] ∧
    Msg.screen ("yt-dlp is up to date (" ++ env.currentVersion ++ ")") ∈ (run_update env fs).msgs := by
  simp [run_update, hf, ht, hc, hl, hge]

/-- Witness for C7: current `2021.11.10` equals the latest tag. -/
theorem up_to_date_no_changes_witness :
    (run_update env7 fsA).outcome = .ret false ∧
    (run_update env7 fsA).fs = fsA ∧
    (run_update env7 fsA).evs = [Ev.fetchedManifest] ∧
    Msg.screen ("yt-dlp is up to date (" ++ env7.currentVersion ++ ")") ∈ (run_update env7 fsA).msgs := by
  have h := up_to_date_no_changes env7 fsA info0 "2021.11.10" [2021, 11, 10] [2021, 11, 10]
    rfl rfl (by decide) (by decide) (by decide)
  exact h

/-- C10: with the legacy frozen bundle (`py2exe`) on a 32-bit host, the
`version_labels` lookup for `py2exe_32` raises an uncaught `KeyError`, so
`run_update` raises instead of reporting a message. -/
theorem py2exe_32_raises_keyError (env : Env) (fs : FS) (info : ReleaseInfo)
    (tag : String) (cur latest : List Int) (lb : List Nat)
    (hv : env.variant = .py2exe) (ha : env.arch = "32")
    (hf : env.fetchVersionInfo = some info)
    (ht : info.tag_name = some tag)
    (hc : version_tuple env.currentVersion = some cur)
    (hl : version_tuple tag = some latest)
    (hge : pyTupleGe cur latest = false)
    (hlive : fs.live = some lb)
    (hw : env.accessLiveW = true) (hd : env.accessDirW = true)
    (hold : fs.oldF = none ∨ env.failRemoveOld = false) :
    (run_update env fs).outcome = .raised .keyError := by
  have hbin : get_bin_info info.assets "py2exe" "32" = .error .keyError := rfl
  rcases hold with h | h
  · simp [run_update, hf, ht, hc, hl, hge, hv, hlive, hw, hd, h,
      is_non_updateable, NON_UPDATEABLE_REASONS, exe_install, exe_download, Variant.tag, ha, hbin]
  · cases hoF : fs.oldF with
    | none =>
      simp [run_update, hf, ht, hc, hl, hge, hv, hlive, hw, hd, hoF,
        is_non_updateable, NON_UPDATEABLE_REASONS, exe_install, exe_download, Variant.tag, ha, hbin]
    | some stale =>
      simp [run_update, hf, ht, hc, hl, hge, hv, hlive, hw, hd, hoF, h,
        is_non_updateable, NON_UPDATEABLE_REASONS, exe_install, exe_download, Variant.tag, ha, hbin]

/-- Witness for C10 at the concrete `py2exe`/32-bit environment. -/
theorem py2exe_32_raises_keyError_witness :
    (run_update env10 fsA).outcome = .raised .keyError :=
  py2exe_32_raises_keyError env10 fsA info0 "2021.11.10" [2021, 10, 22] [2021, 11, 10] [9, 9]
    rfl rfl rfl rfl (by decide) (by decide) (by decide) rfl rfl rfl (Or.inl rfl)

/-- C1 (evaluation at the failing input): on a digest mismatch the code does
report the verification error and delete `filename.new`, but it does *not*
abort before renaming: it renames the live file to `.old`, fails to rename
the just-deleted `.new` onto the live path, reports a second error and rolls
back, so the live content is restored yet renames of the live path occurred. -/
theorem mismatch_falls_through_to_swap :
    (run_update env1 fsA).outcome = .ret false ∧
    Msg.error "Unable to verify the new executable; Visit  https://github.com/yt-dlp/yt-dlp/releases/latest"
      true ∈ (run_update env1 fsA).msgs ∧
    Ev.removed .newF ∈ (run_update env1 fsA).evs ∧
    Ev.renamed .live .oldF ∈ (run_update env1 fsA).evs ∧
    Ev.renamed .oldF .live ∈ (run_update env1 fsA).evs ∧
    Msg.error "Unable to overwrite current version" false ∈ (run_update env1 fsA).msgs ∧
    (run_update env1 fsA).fs.live = some [9, 9] := by
  decide

/-- C2 (amended): provided the OS does not also fail the rollback rename,
the live executable path is never left missing: at exit it holds some
content, and whenever the rollback rename `.old` → live occurred, it holds
exactly the original executable content. -/
theorem live_never_missing (env : Env) (fs : FS) (c : List Nat)
    (hlive : fs.live = some c) (hr : env.failRenameOldLive = false) :
    ((run_update env fs).fs.live).isSome ∧
    (Ev.renamed .oldF .live ∈ (run_update env fs).evs →
      (run_update env fs).fs.live = some c) := by
  unfold run_update
  cases hf : env.fetchVersionInfo with
  | none => simp [hlive, hf]
  | some info =>
    try simp only [hf]
    cases ht : info.tag_name with
    | none => simp [hlive, ht]
    | some vid =>
      try simp only [ht]
      cases hc : version_tuple env.currentVersion with
      | none => simp [hlive, hc]
      | some cur =>
        try simp only [hc]
        cases hl : version_tuple vid with
        | none => simp [hlive, hl]
        | some latest =>
          try simp only [hl]
          split
          · simp [hlive]
          · cases hn : is_non_updateable env.variant with
            | some err => simp [hlive, hn]
            | none =>
              try simp only [hn]
              simp only [hlive]
              split
              · simp [hlive]
              · split
                · exact ⟨(exe_install_live env info.assets vid fs _ [Ev.fetchedManifest]
                      c hlive hr).1,
                    fun hm => ((exe_install_live env info.assets vid fs _ [Ev.fetchedManifest]
                      c hlive hr).2 hm).resolve_left (by simp)⟩
                · split
                  · exact ⟨(pkg_install_live env info.assets vid fs _ [Ev.fetchedManifest]
                        c hlive).1,
                      fun hm => absurd ((pkg_install_live env info.assets vid fs _
                        [Ev.fetchedManifest] c hlive).2 hm) (by simp)⟩
                  · simp [hlive]

/-- Witness for the amended C2 at the mismatch environment, where the
rollback rename actually runs and restores the original bytes. -/
theorem live_never_missing_witness :
    ((run_update env1 fsA).fs.live).isSome ∧ (run_update env1 fsA).fs.live = some [9, 9] :=
  ⟨(live_never_missing env1 fsA [9, 9] rfl rfl).1,
   (live_never_missing env1 fsA [9, 9] rfl rfl).2 (by decide)⟩

/-- C3 (counterexample): a transport failure while fetching the checksum
manifest happens outside every `try`, so the `OSError` propagates out of
`run_update`. -/
theorem sha_fetch_failure_raises :
    (run_update env3 fsA).outcome = .raised .osError := by
  decide

/-- C5 (evaluation at the failing input): `i['name'] in ('SHA2-256SUMS')`
tests substring containment in the string `'SHA2-256SUMS'` (the parentheses
build no tuple), so an asset named `'SUMS'` is selected as the checksum
manifest even though no asset is named exactly `SHA2-256SUMS`. -/
theorem sums_substring_asset_selected :
    (assets5.all fun a => a.name != "SHA2-256SUMS") = true ∧
    get_sha256sum env5 assets5 "win_exe" "64" = .ok (some "d") :=
  ⟨rfl, rfl⟩

/-- C8 (evaluation at the failing input): when `Popen` raises after a fully
successful swap, the handler reports and control falls past the `elif` into
line 214's `assert False`, so `run_update` raises
`AssertionError('Unhandled variant: win_exe')` instead of returning. -/
theorem popen_failure_hits_assert :
    (run_update env8 fsA).outcome = .raised (.assertionError "Unhandled variant: win_exe") ∧
    Msg.error "Unable to delete the old version" false ∈ (run_update env8 fsA).msgs ∧
    Ev.renamed .newF .live ∈ (run_update env8 fsA).evs := by
  decide

/-- C2 (counterexample): if the rename of `.new` onto the live path fails and
the unguarded rollback rename also fails, `run_update` raises and the live
executable path is left missing. -/
theorem double_rename_failure_leaves_live_missing :
    (run_update env2 fsA).fs.live = none ∧
    (run_update env2 fsA).outcome = .raised .osError := by
  decide

/-- C4 (counterexample): the macOS single-file executable (`mac_exe`) is
installed by writing the verified bytes directly over the live path — no
`.new`/`.old` renames at all — exactly like the zip archive. -/
theorem mac_exe_direct_overwrite :
    Ev.wrote .live ∈ (run_update env4 fsA).evs ∧
    ((run_update env4 fsA).evs.all fun e => !e.isRename) = true ∧
    (run_update env4 fsA).fs.live = some [5, 6] ∧
    (run_update env4 fsA).outcome = .ret false := by
  decide

/-- C3 (amended): `run_update` terminates with a Python return — no
exception escapes — provided each of its unguarded raising sites is avoided:
the fetched manifest carries a `tag_name` that parses as a dotted-integer
version, the current version string parses, the live executable file is
present and readable (line 100 hashes it outside any `try`), the suffix
table covers the (variant, arch) pair on the executable path, every
checksum-manifest fetch succeeds with every line splitting into exactly two
tokens, the rollback rename is not OS-failed and the deferred-cleanup spawn
succeeds.  Each hypothesis below matches one of those sites; failures at the
guarded steps (version-info fetch/parse, asset download, file writes, swap
renames, permission checks) are instead caught and reported. -/
theorem run_update_no_uncaught (env : Env) (fs : FS)
    (htag : ∀ info, env.fetchVersionInfo = some info →
      ∃ t, info.tag_name = some t ∧ (version_tuple t).isSome)
    (hcur : (version_tuple env.currentVersion).isSome)
    (hlive : fs.live.isSome)
    (harch : env.variant = Variant.win_exe ∨ env.variant = Variant.py2exe →
      (version_labels.lookup (env.variant.tag ++ "_" ++ env.arch)).isSome)
    (hsha : ∀ u, ∃ lns, env.shaFetch u = some lns ∧ ∀ ln ∈ lns, ∃ a b, ln = [a, b])
    (hr : env.failRenameOldLive = false)
    (hp : env.failPopen = false) :
    ((run_update env fs).outcome.isRet) = true := by
  have hret : ∃ b, (run_update env fs).outcome = .ret b := by
    unfold run_update
    cases hf : env.fetchVersionInfo with
    | none => exact ⟨_, rfl⟩
    | some info =>
      try simp only [hf]
      obtain ⟨t, ht, htp⟩ := htag info hf
      simp only [ht]
      obtain ⟨cur, hc⟩ := Option.isSome_iff_exists.mp hcur
      simp only [hc]
      obtain ⟨latest, hl⟩ := Option.isSome_iff_exists.mp htp
      simp only [hl]
      cases hge : pyTupleGe cur latest
      all_goals try simp only [hge]
      · cases hn : is_non_updateable env.variant with
        | some err => exact ⟨_, rfl⟩
        | none =>
          try simp only [hn]
          obtain ⟨c, hlv⟩ := Option.isSome_iff_exists.mp hlive
          simp only [hlv]
          cases hwk : env.accessLiveW
          all_goals try simp only [hwk, Bool.not_true, Bool.not_false, Bool.false_eq_true,
            reduceIte]
          · exact ⟨_, rfl⟩
          · split
            · rename_i hexe
              exact exe_install_ret env info.assets t fs _ _ (harch hexe) hsha hr hp
            · split
              · rename_i hnexe hpkg
                exact pkg_install_ret env info.assets t fs _ _ hpkg hsha
              · rename_i hnexe hnpkg
                exfalso
                cases hvv : env.variant <;>
                  simp_all [is_non_updateable, NON_UPDATEABLE_REASONS]
      · exact ⟨_, rfl⟩
  obtain ⟨b, hb⟩ := hret
  simp [hb, Outcome.isRet]

/-- A total checksum-fetch environment for the witness of the amended C3. -/
def envC3w : Env := { env0 with shaFetch := fun _ => some [[H0 [1, 2, 3], "yt-dlp.exe"]] }

/-- Witness for the amended C3: the happy-path environment returns. -/
theorem run_update_no_uncaught_witness :
    ((run_update envC3w fsA).outcome.isRet) = true :=
  run_update_no_uncaught envC3w fsA
    (by
      intro info h
      rw [show envC3w.fetchVersionInfo = some info0 from rfl] at h
      injection h with h
      subst h
      exact ⟨"2021.11.10", rfl, by decide⟩)
    (by decide) rfl
    (by
      intro h
      decide)
    (by
      intro u
      refine ⟨[[H0 [1, 2, 3], "yt-dlp.exe"]], rfl, ?_⟩
      intro ln hln
      rw [List.mem_singleton] at hln
      subst hln
      exact ⟨_, _, rfl⟩)
    rfl rfl

/-- C4 (amended): the Windows single-file executable and the frozen bundle
(`win_exe`, `py2exe`) install via the `.new`/`.old` rename sequence and never
write the live path directly (every write event targets the `.new` sibling),
while the zip archive and the macOS single-file executable (`mac_exe`) never
rename at all and write the verified bytes directly over the live path. -/
theorem install_strategy_by_variant (env : Env) (fs : FS) :
    ((env.variant = .win_exe ∨ env.variant = .py2exe) →
      ∀ p, Ev.wrote p ∈ (run_update env fs).evs → p = .newF) ∧
    ((env.variant = .zip ∨ env.variant = .mac_exe) →
      (∀ a b, Ev.renamed a b ∉ (run_update env fs).evs) ∧
      (∀ p, Ev.wrote p ∈ (run_update env fs).evs → p = .live)) := by
  unfold run_update
  cases hf : env.fetchVersionInfo with
  | none => simp
  | some info =>
    try simp only [hf]
    cases ht : info.tag_name with
    | none => simp
    | some vid =>
      try simp only [ht]
      cases hc : version_tuple env.currentVersion with
      | none => simp
      | some cur =>
        try simp only [hc]
        cases hl : version_tuple vid with
        | none => simp
        | some latest =>
          try simp only [hl]
          split
          · simp
          · cases hn : is_non_updateable env.variant with
            | some err => simp
            | none =>
              try simp only [hn]
              cases hlv : fs.live with
              | none => simp
              | some c =>
                try simp only [hlv]
                split
                · simp
                · split
                  · rename_i hexe
                    constructor
                    · intro _ p hp
                      rcases exe_install_trace env info.assets vid fs _ [Ev.fetchedManifest]
                        (Ev.wrote p) hp with h | h
                      · simp at h
                      · simpa [exeAdded] using h
                    · intro hpkg
                      rcases hexe with h1 | h1 <;> rcases hpkg with h2 | h2 <;> simp_all
                  · split
                    · rename_i hnexe hpkg
                      constructor
                      · intro hexe
                        rcases hexe with h1 | h1 <;> simp_all
                      · intro _
                        constructor
                        · intro a b hab
                          rcases pkg_install_trace env info.assets vid fs _ [Ev.fetchedManifest]
                            (Ev.renamed a b) hab with h | h
                          · simp at h
                          · simp [pkgAdded] at h
                        · intro p hp
                          rcases pkg_install_trace env info.assets vid fs _ [Ev.fetchedManifest]
                            (Ev.wrote p) hp with h | h
                          · simp at h
                          · simpa [pkgAdded] using h
                    · simp

/-- Witness for the amended C4: the `mac_exe` run performs no rename, and the
`win_exe` run writes only the `.new` sibling. -/
theorem install_strategy_by_variant_witness :
    ((run_update env4 fsA).evs.all fun e => !e.isRename) = true ∧
    ((run_update env0 fsA).evs.all fun e =>
      match e with
      | Ev.wrote p => p == UPath.newF
      | _ => true) = true := by
  have h4 := (install_strategy_by_variant env4 fsA).2 (Or.inr rfl)
  have h0 := (install_strategy_by_variant env0 fsA).1 (Or.inl rfl)
  constructor
  · refine List.all_eq_true.mpr fun e he => ?_
    cases e with
    | renamed a b => exact absurd he (h4.1 a b)
    | fetchedManifest => rfl
    | downloadedAsset u => rfl
    | wrote p => rfl
    | removed p => rfl
    | spawnedCleanup => rfl
  · refine List.all_eq_true.mpr fun e he => ?_
    cases e with
    | wrote p =>
      rw [h0 p he]
      rfl
    | fetchedManifest => rfl
    | downloadedAsset u => rfl
    | renamed a b => rfl
    | removed p => rfl
    | spawnedCleanup => rfl

/-- C6 (counterexample): when no asset matches the expected platform name,
`run_update` reports `Unable to fetch updates` through the *error* channel
(`report_network_error` → `ydl.report_error`), not a benign
"no update available" outcome. -/
theorem missing_asset_reported_as_error :
    Msg.error "Unable to fetch updates; Visit  https://github.com/yt-dlp/yt-dlp/releases/latest"
      true ∈ (run_update env6 fsA).msgs ∧
    (run_update env6 fsA).outcome = .ret false := by
  decide

end YtDlpUpdate
